import Mathlib

/-!
Verification of the launch-check task worker: a shallow embedding of the
scan orchestration pipeline (ZAP-driven scan handler, completion poller,
risk mapping utilities, result parsing and aggregation) together with
proofs about it.

External collaborators (the ZAP HTTP API, the Postgres store via drizzle,
the bullmq queues, JSON.parse and the zod schema check) are modelled as
oracles supplied to the embedded functions: the control flow, branching
and data transformations are translated from the TypeScript source.
-/

/-! ## Enumerations (src/services/nuclei/types.ts SCAN_STATUS, db schema enums) -/

/-- Scan lifecycle status, `SCAN_STATUS` in the source. -/
inductive ScanStatus
  | pending
  | in_progress
  | completed
  | failed
deriving DecidableEq, Repr

/-- Severity levels, `severityLevelEnum` of the db schema:
critical, high, medium, low, info (in that order). -/
inductive Sev
  | critical
  | high
  | medium
  | low
  | info
deriving DecidableEq, Repr

/-- Confidence levels, `confidenceLevelEnum`. -/
inductive Conf
  | confirmed
  | high
  | medium
  | low
deriving DecidableEq, Repr

/-- Risk levels, `riskLevelEnum`. -/
inductive RiskLevel
  | high
  | medium
  | low
  | info
deriving DecidableEq, Repr

/-! ## ZAP risk mapping utilities (src/services/zap/utils.ts) -/

/-- JavaScript `String.prototype.toLowerCase()` on the ASCII inputs the
mappings receive: lower-case every character. -/
def jsToLowerCase (s : String) : String := ⟨s.data.map Char.toLower⟩

/-- The `risk: number | string` argument of the ZAP mapping helpers. -/
inductive ZapRisk
  | num (n : Int)
  | str (s : String)
deriving DecidableEq, Repr

/-- The function `mapZapRiskToScore`: a number is returned unchanged; a string is
lower-cased and matched against high/medium/low, defaulting to 0. -/
def mapZapRiskToScore : ZapRisk → Int
  | .num n => n
  | .str s =>
    match jsToLowerCase s with
    | "high" => 3
    | "medium" => 2
    | "low" => 1
    | _ => 0

/-- The function `mapZapRiskLevel`: score 3/2/1 maps to high/medium/low, default info. -/
def mapZapRiskLevel (risk : ZapRisk) : RiskLevel :=
  match mapZapRiskToScore risk with
  | 3 => .high
  | 2 => .medium
  | 1 => .low
  | _ => .info

/-- The function `mapZapConfidence`: case-insensitive match, default low. -/
def mapZapConfidence (confidence : String) : Conf :=
  match jsToLowerCase confidence with
  | "confirmed" => .confirmed
  | "high" => .high
  | "medium" => .medium
  | _ => .low

/-- The function `mapZapRiskToSeverity`: score 3/2/1 maps to high/medium/low, default info
(the critical bucket is never produced by this mapping). -/
def mapZapRiskToSeverity (risk : ZapRisk) : Sev :=
  match mapZapRiskToScore risk with
  | 3 => .high
  | 2 => .medium
  | 1 => .low
  | _ => .info

/-! ## Completion poller (src/services/zap/utils.ts waitForZapOperation)

The status callback is modelled as a function from the attempt index to
the `isComplete` boolean it reports; the run is summarised by the number
of status invocations, the total milliseconds slept, and whether the
loop returned normally or threw the timeout error. -/

/-- Outcome of one `waitForZapOperation` run. The timeout error message
of the source interpolates `operationType` and `(maxRetries * intervalMs) / 1000`;
the error carries those data instead of the formatted string. -/
inductive ZapWaitError
  | timedOut (operationType : String) (maxRetries intervalMs : Nat)
deriving DecidableEq, Repr

/-- Summary of a poll run: status-function invocations, milliseconds slept,
and the result (normal return or thrown timeout). -/
structure PollRun where
  statusCalls : Nat
  sleptMs : Nat
  result : Except ZapWaitError Unit
deriving Repr

/-- The `while retries < maxRetries` loop body: at each remaining step the
status function is invoked once; on completion the loop returns, otherwise
it sleeps `intervalMs` and retries. Returns (calls, slept, completed). -/
def pollGo (complete : Nat → Bool) (intervalMs : Nat) : Nat → Nat → Nat × Nat × Bool
  | _, 0 => (0, 0, false)
  | attempt, r + 1 =>
    if complete attempt then (1, 0, true)
    else
      let rest := pollGo complete intervalMs (attempt + 1) r
      (rest.1 + 1, rest.2.1 + intervalMs, rest.2.2)

/-- The poller `waitForZapOperation(getStatus, operationType, scanId, targetUrl,
maxRetries = 100, intervalMs = 2000)`: polls until complete or the retry
budget is exhausted, then throws the timeout error. -/
def waitForZapOperation (complete : Nat → Bool) (operationType : String)
    (maxRetries intervalMs : Nat) : PollRun :=
  let run := pollGo complete intervalMs 0 maxRetries
  { statusCalls := run.1
    sleptMs := run.2.1
    result :=
      if run.2.2 then .ok ()
      else .error (.timedOut operationType maxRetries intervalMs) }

/-- Default `maxRetries` parameter of `waitForZapOperation`. -/
def zapDefaultMaxRetries : Nat := 100

/-- Default `intervalMs` parameter of `waitForZapOperation`. -/
def zapDefaultIntervalMs : Nat := 2000

/-- The poller `waitForZapOperation` as invoked with the defaults left in place. -/
def waitForZapOperationDefault (complete : Nat → Bool) (operationType : String) : PollRun :=
  waitForZapOperation complete operationType zapDefaultMaxRetries zapDefaultIntervalMs

/-! ## A model of JavaScript JSON values and truthiness

`JSON.parse` and the zod schema check are external library calls; they are
supplied as oracles (`String → Except String JsonVal` resp. predicates on
`JsonVal`) to the embedded functions that invoke them. -/

/-- A parsed JSON value. An object is a list of key/value fields. -/
inductive JsonVal
  | null
  | bool (b : Bool)
  | num (n : Int)
  | str (s : String)
  | arr (elems : List JsonVal)
  | obj (fields : List (String × JsonVal))

/-- JavaScript optional-chaining field access `v?.k`: `none` models
`undefined` (missing field or non-object receiver). -/
def jsGet : JsonVal → String → Option JsonVal
  | .obj fields, k => (fields.find? (fun f => f.1 = k)).map (·.2)
  | _, _ => none

/-- JavaScript truthiness of a possibly-undefined JSON value:
`undefined`, `null`, `false`, `0` and `""` are falsy. -/
def jsTruthy : Option JsonVal → Bool
  | none => false
  | some .null => false
  | some (.bool b) => b
  | some (.num n) => n != 0
  | some (.str s) => s != ""
  | some (.arr _) => true
  | some (.obj _) => true

/-- JavaScript `x || null` on an optional string field: `undefined` and
`""` collapse to `null`. -/
def jsStrOrNull : Option String → Option String
  | none => none
  | some s => if s = "" then none else some s

/-! ## Data model (src/tasks/types.ts) -/

/-- The interface `ZapAlert` as declared in src/tasks/types.ts (`risk: number`). -/
structure ZapAlert where
  pluginId : String
  name : String
  risk : Int
  confidence : String
  description : String
  solution : Option String := none
  reference : Option String := none
  cweid : Option String := none
  wascid : Option String := none
  sourceid : Option String := none
  url : String
  method : Option String := none
  parameter : Option String := none
  attack : Option String := none
  evidence : Option String := none
  otherinfo : Option String := none
  messageId : Option String := none
  requestHeader : Option String := none
  requestBody : Option String := none
  responseHeader : Option String := none
  responseBody : Option String := none
deriving DecidableEq, Repr

/-- The `metadata` object attached to each finding record. -/
structure FindingMeta where
  pluginId : String
  messageId : Option String
  contextName : String
deriving DecidableEq, Repr

/-- The interface `Finding` as declared in src/tasks/types.ts. -/
structure Finding where
  scanId : String
  name : String
  description : String
  severity : Sev
  confidence : Conf
  solution : Option String
  reference : Option String
  tags : List String
  riskLevel : RiskLevel
  riskScore : Int
  pluginId : String
  cweIds : List String
  wasc : List String
  cveId : Option String
  url : String
  method : Option String
  parameter : Option String
  attack : Option String
  evidence : Option String
  otherInfo : Option String
  requestHeaders : Option JsonVal
  requestBody : Option String
  responseHeaders : Option JsonVal
  metadata : FindingMeta

/-- The interface `ScanStats` as declared in src/tasks/types.ts; `avgRiskScore` is a
JavaScript number, modelled as a rational. -/
structure ScanStats where
  criticalCount : Nat
  highCount : Nat
  mediumCount : Nat
  lowCount : Nat
  infoCount : Nat
  totalFindings : Nat
  avgRiskScore : Rat
  maxRiskScore : Int
deriving DecidableEq, Repr

/-- The all-zero statistics object written for a scan with no alerts
(`emptyStats` literal in the scan handler). -/
def emptyStats : ScanStats :=
  { criticalCount := 0, highCount := 0, mediumCount := 0, lowCount := 0
    infoCount := 0, totalFindings := 0, avgRiskScore := 0, maxRiskScore := 0 }

/-! ## Alert normalization (src/tasks/findings-utils.ts mapAlertsToFindings) -/

/-- The expression `alert.requestHeader ? JSON.parse(alert.requestHeader) : null`:
a missing or empty header yields `null`; a non-empty one is fed to
`JSON.parse`, whose exception propagates. -/
def parseHeaderField (jsonParse : String → Except String JsonVal)
    (field : Option String) : Except String (Option JsonVal) :=
  match field with
  | none => .ok none
  | some s => if s = "" then .ok none else (jsonParse s).map some

/-- The object literal built for one alert inside `mapAlertsToFindings`.
`JSON.parse` failures on `requestHeader` or `responseHeader` propagate. -/
def mapAlertToFinding (jsonParse : String → Except String JsonVal)
    (scanId contextName : String) (alert : ZapAlert) : Except String Finding := do
  let reqHeaders ← parseHeaderField jsonParse alert.requestHeader
  let respHeaders ← parseHeaderField jsonParse alert.responseHeader
  .ok
    { scanId := scanId
      name := alert.name
      description := alert.description
      severity := mapZapRiskToSeverity (.num alert.risk)
      confidence := mapZapConfidence alert.confidence
      solution := jsStrOrNull alert.solution
      reference := jsStrOrNull alert.reference
      tags := ["zap", "security"]
      riskLevel := mapZapRiskLevel (.num alert.risk)
      riskScore := mapZapRiskToScore (.num alert.risk)
      pluginId := alert.pluginId
      cweIds := match jsStrOrNull alert.cweid with
        | some c => [c]
        | none => []
      wasc := match jsStrOrNull alert.wascid with
        | some w => [w]
        | none => []
      cveId := none
      url := alert.url
      method := jsStrOrNull alert.method
      parameter := jsStrOrNull alert.parameter
      attack := jsStrOrNull alert.attack
      evidence := jsStrOrNull alert.evidence
      otherInfo := jsStrOrNull alert.otherinfo
      requestHeaders := reqHeaders
      requestBody := jsStrOrNull alert.requestBody
      responseHeaders := respHeaders
      metadata :=
        { pluginId := alert.pluginId
          messageId := alert.messageId
          contextName := contextName } }

/-- The map `mapAlertsToFindings = alerts.map(alert => ...)`: the alerts are
processed in order and the first thrown exception aborts the whole map. -/
def mapAlertsToFindings (jsonParse : String → Except String JsonVal)
    (scanId contextName : String) : List ZapAlert → Except String (List Finding)
  | [] => .ok []
  | a :: rest =>
    match mapAlertToFinding jsonParse scanId contextName a with
    | .error e => .error e
    | .ok f =>
      match mapAlertsToFindings jsonParse scanId contextName rest with
      | .error e => .error e
      | .ok fs => .ok (f :: fs)

/-! ## Aggregation (src/tasks/findings-utils.ts calculateStats) -/

/-- One iteration of the `findings.forEach` body: bump the severity
bucket, accumulate the running risk total, track the maximum. -/
def statsStep (acc : ScanStats × Int) (finding : Finding) : ScanStats × Int :=
  let stats := acc.1
  let stats :=
    match finding.severity with
    | .critical => { stats with criticalCount := stats.criticalCount + 1 }
    | .high => { stats with highCount := stats.highCount + 1 }
    | .medium => { stats with mediumCount := stats.mediumCount + 1 }
    | .low => { stats with lowCount := stats.lowCount + 1 }
    | .info => { stats with infoCount := stats.infoCount + 1 }
  let riskScore := finding.riskScore
  ({ stats with maxRiskScore := max stats.maxRiskScore riskScore },
    acc.2 + riskScore)

/-- The aggregation `calculateStats`: zero-initialised counters with `totalFindings`
set up front to `findings.length`; after the fold, `avgRiskScore` is
`totalRiskScore / findings.length` guarded by `findings.length > 0`. -/
def calculateStats (findings : List Finding) : ScanStats :=
  let init : ScanStats :=
    { criticalCount := 0, highCount := 0, mediumCount := 0, lowCount := 0
      infoCount := 0, totalFindings := findings.length
      avgRiskScore := 0, maxRiskScore := 0 }
  let run := findings.foldl statsStep (init, 0)
  { run.1 with
    avgRiskScore :=
      if findings.length > 0 then (run.2 : Rat) / (findings.length : Rat) else 0 }

/-! ## Process-adapter output parsing

`NucleiService.parseResults` (src/services/nuclei/service.ts) and
`KatanaService.parseResults` (src/services/katana/service.ts) both split
stdout on newlines, drop blank lines, parse each line independently
(`JSON.parse` inside a try/catch, then a shape check), log-and-drop
malformed lines, and keep the rest. `JSON.parse` and the zod schema
check `NucleiFindingSchema.safeParse` are external and passed as oracles. -/

/-- The per-line body of the Nuclei `map`: `JSON.parse` (catch yields
null) followed by `NucleiFindingSchema.safeParse` (failure yields null). -/
def nucleiDecodeLine {α : Type} (jsonParse : String → Except String JsonVal)
    (safeParse : JsonVal → Option α) (line : String) : Option α :=
  match jsonParse line with
  | .error _ => none
  | .ok j => safeParse j

/-- The per-line body of the Katana `map`: `JSON.parse` (catch yields
null), then `!result?.url || !result?.path || !result?.method` yields
null, otherwise the parsed record is kept. -/
def katanaDecodeLine (jsonParse : String → Except String JsonVal)
    (line : String) : Option JsonVal :=
  match jsonParse line with
  | .error _ => none
  | .ok j =>
    if jsTruthy (jsGet j "url") && jsTruthy (jsGet j "path")
        && jsTruthy (jsGet j "method")
    then some j else none

/-- JavaScript `s.split("\n")`: split on every newline, keeping empty
segments (structural recursion over the character list). -/
def jsSplitNewlineAux : List Char → List Char → List String
  | [], acc => [⟨acc.reverse⟩]
  | c :: cs, acc =>
    if c = '\n' then ⟨acc.reverse⟩ :: jsSplitNewlineAux cs []
    else jsSplitNewlineAux cs (c :: acc)

/-- JavaScript `s.split("\n")`. -/
def jsSplitNewline (s : String) : List String := jsSplitNewlineAux s.data []

/-- JavaScript `s.trim()`: strip whitespace from both ends. -/
def jsTrim (s : String) : String :=
  ⟨(((s.data.dropWhile Char.isWhitespace).reverse.dropWhile Char.isWhitespace).reverse)⟩

/-- The shared `stdout.split("\n").filter(line => line.trim())` stage. -/
def keptLines (stdout : String) : List String :=
  (jsSplitNewline stdout).filter (fun l => jsTrim l != "")

/-- The interface `ScanResult` (src/services/nuclei/types.ts), findings abstract. -/
structure ScanResult (α : Type) where
  timestamp : String
  target : String
  status : ScanStatus
  total_findings : Nat
  findings : List α
  warnings : Option String

/-- The parser `NucleiService.parseResults`: per-line parse, drop malformed,
wrap with metadata; `warnings` is set only when stderr is non-empty.
The wall clock (`new Date().toISOString()`) is passed in as `now`. -/
def NucleiService.parseResults {α : Type}
    (jsonParse : String → Except String JsonVal) (safeParse : JsonVal → Option α)
    (now : String) (stdout stderr : String) (targets : List String) : ScanResult α :=
  let findings := (keptLines stdout).filterMap (nucleiDecodeLine jsonParse safeParse)
  { timestamp := now
    target := targets.headD ""
    status := .completed
    total_findings := findings.length
    findings := findings
    warnings := if stderr = "" then none else some stderr }

/-- The interface `CrawlResult` (src/services/katana/types.ts); an endpoint is kept as
the parsed JSON record, as in the source. -/
structure CrawlResult where
  timestamp : String
  target : String
  status : ScanStatus
  total_endpoints : Nat
  endpoints : List JsonVal
  warnings : Option String

/-- The parser `KatanaService.parseResults`: per-line parse with required-field
check, drop malformed, wrap with metadata. -/
def KatanaService.parseResults (jsonParse : String → Except String JsonVal)
    (now : String) (stdout stderr : String) (targets : List String) : CrawlResult :=
  let endpoints := (keptLines stdout).filterMap (katanaDecodeLine jsonParse)
  { timestamp := now
    target := targets.headD ""
    status := .completed
    total_endpoints := endpoints.length
    endpoints := endpoints
    warnings := if stderr = "" then none else some stderr }

/-! ## Persistence gateway (src/tasks/db-operations.ts) -/

/-- The `error?: unknown` argument of `updateScanStatus`, as the
JavaScript value categories its body distinguishes: an `Error` instance,
a string, any other truthy value, any other falsy value, or absent. -/
inductive JsValue
  | errorObj (msg : String)
  | strVal (s : String)
  | otherTruthy
  | otherFalsy
  | undef
deriving DecidableEq, Repr

/-- The `errorMessage` computation at the top of `updateScanStatus`:
`error instanceof Error ? error.message : typeof error === "string"
? error : error ? "Unknown error occurred" : null`. -/
def jsErrorMessage : JsValue → Option String
  | .errorObj msg => some msg
  | .strVal s => some s
  | .otherTruthy => some "Unknown error occurred"
  | .otherFalsy => none
  | .undef => none

/-- The scans row columns touched by the worker. `completedAt` is an
abstract timestamp (`none` models SQL NULL). -/
structure ScanRow where
  status : ScanStatus
  completedAt : Option Nat
  errorMessage : Option String
  stats : ScanStats
deriving DecidableEq, Repr

/-- The update `updateScanStatus(scanId, status, stats?, error?)`: one UPDATE that
sets `status`, overwrites `completedAt` with the current time, overwrites
`errorMessage` with the computed message (NULL when no error), and spreads
the stats columns when `stats` is provided. -/
def updateScanStatus (row : ScanRow) (now : Nat) (status : ScanStatus)
    (stats : Option ScanStats) (error : JsValue) : ScanRow :=
  { row with
    status := status
    completedAt := some now
    errorMessage := jsErrorMessage error
    stats := stats.getD row.stats }

/-! ## Scan orchestrator (src/tasks/scan.ts)

The handler is embedded as a deterministic interpreter over a `ScanEnv`
describing the outcomes of every external call (ZAP API, database,
notification queue). It produces the ordered trace of observable events
plus the handler's own outcome (normal return or thrown error); the
persisted scans row is recovered by replaying the `dbUpdate` events. -/

/-- Observable events of one handler run, in execution order. -/
inductive Ev
  | dbUpdate (status : ScanStatus) (stats : Option ScanStats) (error : JsValue)
  | dbInsertFindings (count : Nat)
  | ctxCreated (name : String)
  | ctxIncluded (name url : String)
  | spiderStarted (url : String)
  | ascanStarted (url : String)
  | ctxRemoveCalled (name : String)
  | notified (scanId projectId : String)
deriving DecidableEq, Repr

/-- Outcome of the spider/active-scan sequence for one target URL:
whether each start call succeeds and whether each poll loop observes
completion within the retry budget. -/
structure TargetOutcome where
  spiderStart : Option String
  spiderCompletes : Bool
  ascanStart : Option String
  ascanCompletes : Bool

/-- The scans row fetched by `getScanRecord` (the handler only reads
`projectId` from it). -/
structure DbScanRecord where
  projectId : String
deriving DecidableEq, Repr

/-- Outcomes of all external collaborator calls a handler run can make.
An `Option String` is `some errMsg` when the call throws. -/
structure ScanEnv where
  record : Except String DbScanRecord
  createContextOk : Option String
  includeResult : String → Option String
  target : String → TargetOutcome
  alerts : Except String (List ZapAlert)
  jsonParse : String → Except String JsonVal
  insertResult : Option String
  notifyResult : Option String

/-- The stage `scanTargetUrl`: start the spider (event emitted on the call), wait
for it via `waitForZapOperation` with the defaults (timeout message
`"spider scan timed out after 200 seconds"`), then start the active scan
and wait likewise (`operationType` is `"active scan"`, so the source's
interpolation produces `"active scan scan timed out after 200 seconds"`). -/
def scanTargetUrl (env : ScanEnv) (url : String) : List Ev × Option String :=
  let t := env.target url
  match t.spiderStart with
  | some e => ([.spiderStarted url], some e)
  | none =>
    if t.spiderCompletes then
      match t.ascanStart with
      | some e => ([.spiderStarted url, .ascanStarted url], some e)
      | none =>
        if t.ascanCompletes then
          ([.spiderStarted url, .ascanStarted url], none)
        else
          ([.spiderStarted url, .ascanStarted url],
            some "active scan scan timed out after 200 seconds")
    else
      ([.spiderStarted url], some "spider scan timed out after 200 seconds")

/-- The `for (const url of targetUrls) await zap.includeInContext(...)`
loop inside `createScanContext`: stops at the first failing registration. -/
def runIncludes (env : ScanEnv) (name : String) : List String → List Ev × Option String
  | [] => ([], none)
  | u :: us =>
    match env.includeResult u with
    | some e => ([], some e)
    | none =>
      let rest := runIncludes env name us
      (.ctxIncluded name u :: rest.1, rest.2)

/-- The stage `createScanContext(scanId, targetUrls)`: derive the context name
`scan-` ++ scanId, create the context, then register every target URL.
The name is returned only when creation and every registration succeed. -/
def createScanContext (env : ScanEnv) (scanId : String) (urls : List String) :
    List Ev × Except String String :=
  match env.createContextOk with
  | some e => ([], .error e)
  | none =>
    let name := "scan-" ++ scanId
    let rest := runIncludes env name urls
    (.ctxCreated name :: rest.1,
      match rest.2 with
      | some e => .error e
      | none => .ok name)

/-- The per-target loop of the handler: on the first failing target the
inner catch writes `updateScanStatus(Failed, undefined, error)` and
rethrows, so no later target is processed. -/
def runTargets (env : ScanEnv) : List String → List Ev × Option String
  | [] => ([], none)
  | u :: us =>
    let r := scanTargetUrl env u
    match r.2 with
    | some e => (r.1 ++ [.dbUpdate .failed none (.errorObj e)], some e)
    | none =>
      let rest := runTargets env us
      (r.1 ++ rest.1, rest.2)

/-- Result of the handler's try body: emitted events, the value of the
`contextName` local at exit (assigned only when `createScanContext`
returned), and the thrown error if the body threw. -/
structure BodyResult where
  events : List Ev
  ctx : Option String
  thrown : Option String

/-- The try body of the `scan` handler: fetch the scan record, mark the
scan in-progress, create the context, drive every target in order,
collect alerts, then either persist mapped findings with statistics and
notify, or write the all-zero completed statistics and notify. -/
def scanBody (env : ScanEnv) (scanId : String) (urls : List String) : BodyResult :=
  match env.record with
  | .error e => ⟨[], none, some e⟩
  | .ok rec =>
    let ev0 : List Ev := [.dbUpdate .in_progress none .undef]
    match createScanContext env scanId urls with
    | (ev1, .error e) => ⟨ev0 ++ ev1, none, some e⟩
    | (ev1, .ok name) =>
      let r2 := runTargets env urls
      match r2.2 with
      | some e => ⟨ev0 ++ ev1 ++ r2.1, some name, some e⟩
      | none =>
        match env.alerts with
        | .error e => ⟨ev0 ++ ev1 ++ r2.1, some name, some e⟩
        | .ok alerts =>
          if alerts.length > 0 then
            match mapAlertsToFindings env.jsonParse scanId name alerts with
            | .error e =>
              ⟨ev0 ++ ev1 ++ r2.1 ++ [.dbUpdate .failed none (.errorObj e)],
                some name, some e⟩
            | .ok findings =>
              let stats := calculateStats findings
              match env.insertResult with
              | some e =>
                ⟨ev0 ++ ev1 ++ r2.1 ++ [.dbUpdate .failed none (.errorObj e)],
                  some name, some e⟩
              | none =>
                let ev3 : List Ev :=
                  [.dbInsertFindings findings.length,
                    .dbUpdate .completed (some stats) .undef]
                match env.notifyResult with
                | some e =>
                  ⟨ev0 ++ ev1 ++ r2.1 ++ ev3 ++ [.dbUpdate .failed none (.errorObj e)],
                    some name, some e⟩
                | none =>
                  ⟨ev0 ++ ev1 ++ r2.1 ++ ev3 ++ [.notified scanId rec.projectId],
                    some name, none⟩
          else
            let ev3 : List Ev := [.dbUpdate .completed (some emptyStats) .undef]
            match env.notifyResult with
            | some e => ⟨ev0 ++ ev1 ++ r2.1 ++ ev3, some name, some e⟩
            | none =>
              ⟨ev0 ++ ev1 ++ r2.1 ++ ev3 ++ [.notified scanId rec.projectId],
                some name, none⟩

/-- A scan job as delivered by the queue. `scanId = none` models an
absent id; `targetUrls = none` models an absent `request` or an absent
`targetUrls` field. -/
structure ScanJob where
  scanId : Option String
  targetUrls : Option (List String)
deriving DecidableEq, Repr

/-- Negation of the guard `!scanId || !request?.targetUrls?.length`. -/
def jobValid (job : ScanJob) : Bool :=
  (match job.scanId with
    | none => false
    | some s => s != "") &&
  (match job.targetUrls with
    | none => false
    | some us => !us.isEmpty)

/-- The full `scan` handler: input guard, try body, catch block
(`updateScanStatus(Failed, ..., error)` then rethrow) and finally block
(`removeContext` invoked exactly when the `contextName` local was
assigned; its own failure is swallowed inside `removeContext`). -/
def scanHandler (env : ScanEnv) (job : ScanJob) : List Ev × Except String Unit :=
  if jobValid job then
    let scanId := job.scanId.getD ""
    let urls := job.targetUrls.getD []
    let body := scanBody env scanId urls
    let finEvs : List Ev :=
      match body.ctx with
      | some name => [.ctxRemoveCalled name]
      | none => []
    match body.thrown with
    | none => (body.events ++ finEvs, .ok ())
    | some e =>
      (body.events ++ [.dbUpdate .failed none (.errorObj e)] ++ finEvs, .error e)
  else
    ([], .error "Invalid job data: scanId and targetUrls are required")

/-- The scans row before the job runs: pending, no timestamps, no error. -/
def initScanRow : ScanRow :=
  { status := .pending, completedAt := none, errorMessage := none, stats := emptyStats }

/-- Replay one event against the row: only `dbUpdate` events touch it
(the timestamp argument is irrelevant to the properties proved here and
fixed at 0). -/
def applyEv (row : ScanRow) : Ev → ScanRow
  | .dbUpdate status stats error => updateScanStatus row 0 status stats error
  | _ => row

/-- The scans row after a trace. -/
def replayRow (events : List Ev) : ScanRow := events.foldl applyEv initScanRow

/-- Whether an event is a `removeContext` invocation. -/
def isCtxRemove : Ev → Bool
  | .ctxRemoveCalled _ => true
  | _ => false

/-- Number of `removeContext` invocations in a trace. -/
def countRemove (events : List Ev) : Nat :=
  events.countP isCtxRemove

/-- The target URLs for which a spider operation was started, in order. -/
def startedSpiders (events : List Ev) : List String :=
  events.filterMap fun e => match e with
    | .spiderStarted u => some u
    | _ => none

/-- The target URLs for which an active scan was started, in order. -/
def startedAscans (events : List Ev) : List String :=
  events.filterMap fun e => match e with
    | .ascanStarted u => some u
    | _ => none

/-- Whether the context-setup stage runs to completion in `env`: the
record fetch, the context creation and every registration succeed (this
is exactly the condition under which the handler's `contextName` local
is assigned). -/
def ctxEstablished (env : ScanEnv) (urls : List String) : Bool :=
  (match env.record with
    | .ok _ => true
    | .error _ => false) &&
  env.createContextOk.isNone &&
  urls.all fun u => (env.includeResult u).isNone

/-! ## Helper lemmas -/

/-- Under a status function that never reports complete, the loop runs
its full budget: one status call and one sleep per remaining attempt. -/
theorem pollGo_never_complete (complete : Nat → Bool) (h : ∀ n, complete n = false)
    (intervalMs : Nat) : ∀ r a, pollGo complete intervalMs a r = (r, r * intervalMs, false) := by
  intro r
  induction r with
  | zero => intro a; simp [pollGo]
  | succ n ih =>
    intro a
    simp [pollGo, h, ih, Nat.succ_mul]

/-- Sum of the five severity buckets of a statistics record. -/
def sumCounts (s : ScanStats) : Nat :=
  s.criticalCount + s.highCount + s.mediumCount + s.lowCount + s.infoCount

theorem statsStep_sumCounts (acc : ScanStats × Int) (f : Finding) :
    sumCounts (statsStep acc f).1 = sumCounts acc.1 + 1 ∧
    (statsStep acc f).1.totalFindings = acc.1.totalFindings := by
  cases hsev : f.severity <;>
    simp [statsStep, sumCounts, hsev] <;> omega

theorem statsFold_invariant (fs : List Finding) :
    ∀ (r : ScanStats) (t : Int),
      sumCounts (fs.foldl statsStep (r, t)).1 = sumCounts r + fs.length ∧
      (fs.foldl statsStep (r, t)).1.totalFindings = r.totalFindings := by
  induction fs with
  | nil => intro r t; simp
  | cons f fs ih =>
    intro r t
    have hstep := statsStep_sumCounts (r, t) f
    have htail := ih (statsStep (r, t) f).1 (statsStep (r, t) f).2
    refine ⟨?_, ?_⟩
    · rw [List.foldl_cons, htail.1, hstep.1]
      simp
      omega
    · rw [List.foldl_cons, htail.2, hstep.2]

/-! ## Claim theorems: utilities -/

/-- C3: `waitForZapOperation` with `maxRetries = 3`, `intervalMs = 10`
against a status function that never reports complete makes exactly 3
status calls, sleeps 10 ms after each incomplete check (30 ms total) and
then throws the timeout error; the defaults are 100 attempts at 2000 ms
intervals, a 200 000 ms (≈200 s) ceiling. -/
theorem waitForZapOperation_timeout_behavior
    (complete : Nat → Bool) (operationType : String)
    (h : ∀ n, complete n = false) :
    (waitForZapOperation complete operationType 3 10).statusCalls = 3 ∧
    (waitForZapOperation complete operationType 3 10).sleptMs = 30 ∧
    (waitForZapOperation complete operationType 3 10).result =
      .error (.timedOut operationType 3 10) ∧
    zapDefaultMaxRetries = 100 ∧
    zapDefaultIntervalMs = 2000 ∧
    (waitForZapOperationDefault complete operationType).statusCalls = 100 ∧
    (waitForZapOperationDefault complete operationType).sleptMs = 200000 ∧
    (waitForZapOperationDefault complete operationType).result =
      .error (.timedOut operationType 100 2000) := by
  have h3 := pollGo_never_complete complete h 10 3 0
  have h100 := pollGo_never_complete complete h 2000 100 0
  simp [waitForZapOperation, waitForZapOperationDefault,
    zapDefaultMaxRetries, zapDefaultIntervalMs, h3, h100]

/-- Witness for the poller theorem at the constantly-incomplete status
function. -/
theorem waitForZapOperation_timeout_behavior_witness :
    (waitForZapOperation (fun _ => false) "spider" 3 10).statusCalls = 3 ∧
    (waitForZapOperation (fun _ => false) "spider" 3 10).sleptMs = 30 ∧
    (waitForZapOperation (fun _ => false) "spider" 3 10).result =
      .error (.timedOut "spider" 3 10) ∧
    zapDefaultMaxRetries = 100 ∧
    zapDefaultIntervalMs = 2000 ∧
    (waitForZapOperationDefault (fun _ => false) "spider").statusCalls = 100 ∧
    (waitForZapOperationDefault (fun _ => false) "spider").sleptMs = 200000 ∧
    (waitForZapOperationDefault (fun _ => false) "spider").result =
      .error (.timedOut "spider" 100 2000) :=
  waitForZapOperation_timeout_behavior (fun _ => false) "spider" (fun _ => rfl)

/-- C4: the risk-to-severity mapping sends `"high"` to high, `"Medium"`
to medium (case-insensitive string match), the number 2 to medium and
the number 99 to info (unrecognized numerics fall to the lowest bucket);
`mapZapRiskToScore` passes every numeric input through unchanged. -/
theorem mapZapRisk_spec :
    mapZapRiskToSeverity (.str "high") = .high ∧
    mapZapRiskToSeverity (.str "Medium") = .medium ∧
    mapZapRiskToSeverity (.num 2) = .medium ∧
    mapZapRiskToSeverity (.num 99) = .info ∧
    ∀ n : Int, mapZapRiskToScore (.num n) = n :=
  ⟨by decide, by decide, rfl, rfl, fun _ => rfl⟩

/-- C5: for every finding list the five severity buckets sum to
`totalFindings`, which equals the list length; the empty list yields
average and maximum risk score 0 with no division fault. -/
theorem calculateStats_spec (fs : List Finding) :
    (calculateStats fs).criticalCount + (calculateStats fs).highCount +
      (calculateStats fs).mediumCount + (calculateStats fs).lowCount +
      (calculateStats fs).infoCount = (calculateStats fs).totalFindings ∧
    (calculateStats fs).totalFindings = fs.length ∧
    (calculateStats []).avgRiskScore = 0 ∧
    (calculateStats []).maxRiskScore = 0 := by
  have hinv := statsFold_invariant fs
    { criticalCount := 0, highCount := 0, mediumCount := 0, lowCount := 0
      infoCount := 0, totalFindings := fs.length
      avgRiskScore := 0, maxRiskScore := 0 } 0
  have ha : sumCounts
      { criticalCount := 0, highCount := 0, mediumCount := 0, lowCount := 0
        infoCount := 0, totalFindings := fs.length
        avgRiskScore := 0, maxRiskScore := 0 } = 0 := rfl
  refine ⟨?_, ?_, rfl, rfl⟩
  · have h1 := hinv.1
    have h2 := hinv.2
    rw [ha] at h1
    simp only [sumCounts] at h1
    simp only [calculateStats]
    simp only [h2]
    omega
  · have h2 := hinv.2
    simp [calculateStats, h2]

/-- C10: every `updateScanStatus` call overwrites `completedAt` with the
current time and overwrites `errorMessage` with the value computed from
the error argument — NULL when no error is supplied — for every status
value, including the transition to in_progress. -/
theorem updateScanStatus_frame (row : ScanRow) (now : Nat) (status : ScanStatus)
    (stats : Option ScanStats) (error : JsValue) :
    (updateScanStatus row now status stats error).completedAt = some now ∧
    (updateScanStatus row now status stats error).errorMessage = jsErrorMessage error ∧
    (updateScanStatus row now status stats .undef).errorMessage = none ∧
    (updateScanStatus row now .in_progress stats .undef).completedAt = some now :=
  ⟨rfl, rfl, rfl, rfl⟩

/-- A `filterMap` whose function succeeds on every element keeps them all. -/
theorem length_filterMap_of_isSome {α β : Type} (f : α → Option β) :
    ∀ xs : List α, (∀ x ∈ xs, (f x).isSome) → (xs.filterMap f).length = xs.length := by
  intro xs
  induction xs with
  | nil => intro _; simp
  | cons x xs ih =>
    intro h
    have hx := h x (List.mem_cons_self x xs)
    obtain ⟨b, hb⟩ := Option.isSome_iff_exists.mp hx
    have hxs := ih fun y hy => h y (List.mem_cons_of_mem x hy)
    simp [List.filterMap_cons, hb, hxs]

/-- C6: one malformed line among otherwise valid process output yields
exactly the valid findings, for both the Nuclei and the Katana
`parseResults`: each kept line is decoded independently and a line whose
`JSON.parse` or shape check fails is dropped without aborting the parse. -/
theorem parseResults_drops_malformed_line {α : Type}
    (jsonParse : String → Except String JsonVal) (safeParse : JsonVal → Option α)
    (now stdout stderr : String) (targets : List String)
    (pre post : List String) (bad : String)
    (hsplit : keptLines stdout = pre ++ bad :: post)
    (hok : ∀ l ∈ pre ++ post,
      (nucleiDecodeLine jsonParse safeParse l).isSome ∧ (katanaDecodeLine jsonParse l).isSome)
    (hbadNuclei : nucleiDecodeLine jsonParse safeParse bad = none)
    (hbadKatana : katanaDecodeLine jsonParse bad = none) :
    (NucleiService.parseResults jsonParse safeParse now stdout stderr targets).findings.length
        = pre.length + post.length ∧
    (NucleiService.parseResults jsonParse safeParse now stdout stderr targets).total_findings
        = pre.length + post.length ∧
    (KatanaService.parseResults jsonParse now stdout stderr targets).endpoints.length
        = pre.length + post.length ∧
    (KatanaService.parseResults jsonParse now stdout stderr targets).total_endpoints
        = pre.length + post.length := by
  have hpreN : ∀ l ∈ pre, (nucleiDecodeLine jsonParse safeParse l).isSome :=
    fun l hl => (hok l (List.mem_append_left post hl)).1
  have hpostN : ∀ l ∈ post, (nucleiDecodeLine jsonParse safeParse l).isSome :=
    fun l hl => (hok l (List.mem_append_right pre hl)).1
  have hpreK : ∀ l ∈ pre, (katanaDecodeLine jsonParse l).isSome :=
    fun l hl => (hok l (List.mem_append_left post hl)).2
  have hpostK : ∀ l ∈ post, (katanaDecodeLine jsonParse l).isSome :=
    fun l hl => (hok l (List.mem_append_right pre hl)).2
  have hN : ((keptLines stdout).filterMap (nucleiDecodeLine jsonParse safeParse)).length
      = pre.length + post.length := by
    rw [hsplit, List.filterMap_append, List.filterMap_cons, hbadNuclei,
      List.length_append,
      length_filterMap_of_isSome _ pre hpreN,
      length_filterMap_of_isSome _ post hpostN]
  have hK : ((keptLines stdout).filterMap (katanaDecodeLine jsonParse)).length
      = pre.length + post.length := by
    rw [hsplit, List.filterMap_append, List.filterMap_cons, hbadKatana,
      List.length_append,
      length_filterMap_of_isSome _ pre hpreK,
      length_filterMap_of_isSome _ post hpostK]
  exact ⟨hN, hN, hK, hK⟩

/-- Witness for the malformed-line theorem: two well-formed lines around
one line that fails to parse yield exactly two findings and endpoints. -/
theorem parseResults_drops_malformed_line_witness :
    (NucleiService.parseResults
        (fun s => if s = "good" then
          .ok (.obj [("url", .str "u"), ("path", .str "p"), ("method", .str "m")])
          else .error "Unexpected token")
        (fun j => some j) "t" "good\nbad\ngood" "" ["https://a"]).findings.length = 2 ∧
    (NucleiService.parseResults
        (fun s => if s = "good" then
          .ok (.obj [("url", .str "u"), ("path", .str "p"), ("method", .str "m")])
          else .error "Unexpected token")
        (fun j => some j) "t" "good\nbad\ngood" "" ["https://a"]).total_findings = 2 ∧
    (KatanaService.parseResults
        (fun s => if s = "good" then
          .ok (.obj [("url", .str "u"), ("path", .str "p"), ("method", .str "m")])
          else .error "Unexpected token")
        "t" "good\nbad\ngood" "" ["https://a"]).endpoints.length = 2 ∧
    (KatanaService.parseResults
        (fun s => if s = "good" then
          .ok (.obj [("url", .str "u"), ("path", .str "p"), ("method", .str "m")])
          else .error "Unexpected token")
        "t" "good\nbad\ngood" "" ["https://a"]).total_endpoints = 2 := by
  have h := parseResults_drops_malformed_line
    (fun s => if s = "good" then
      .ok (.obj [("url", .str "u"), ("path", .str "p"), ("method", .str "m")])
      else .error "Unexpected token")
    (fun j => some j) "t" "good\nbad\ngood" "" ["https://a"]
    ["good"] ["good"] "bad"
    (by decide)
    (by intro l hl; fin_cases hl <;> exact ⟨rfl, rfl⟩)
    rfl rfl
  simpa using h

/-- C9: normalization of a full alert set is not total — an alert whose
`requestHeader` is a non-empty string rejected by `JSON.parse` makes
`mapAlertsToFindings` throw that parse error, aborting the whole set
even when every other alert would normalize fine. -/
theorem mapAlertsToFindings_throws_on_bad_header
    (jsonParse : String → Except String JsonVal) (scanId contextName : String)
    (pre post : List ZapAlert) (alert : ZapAlert) (s msg : String)
    (hreq : alert.requestHeader = some s) (hs : s ≠ "")
    (hparse : jsonParse s = .error msg)
    (hpre : ∀ a ∈ pre, ∃ f, mapAlertToFinding jsonParse scanId contextName a = .ok f) :
    mapAlertsToFindings jsonParse scanId contextName (pre ++ alert :: post) = .error msg := by
  have halert : mapAlertToFinding jsonParse scanId contextName alert = .error msg := by
    simp [mapAlertToFinding, parseHeaderField, hreq, hs, hparse, Except.map, Except.bind, bind]
  induction pre with
  | nil => simp [mapAlertsToFindings, halert]
  | cons a pre ih =>
    obtain ⟨f, hf⟩ := hpre a (List.mem_cons_self a pre)
    have htail := ih fun b hb => hpre b (List.mem_cons_of_mem a hb)
    simp [mapAlertsToFindings, hf, htail]

/-- Witness: one well-formed alert followed by one whose request header
is unparseable JSON aborts normalization with the parse error. -/
theorem mapAlertsToFindings_throws_witness :
    mapAlertsToFindings (fun _ => .error "Unexpected token <")
      "s1" "scan-s1"
      ([{ pluginId := "p0", name := "ok", risk := 2, confidence := "High"
          description := "d", url := "https://a" }] ++
        [{ pluginId := "p1", name := "bad", risk := 3, confidence := "Low"
           description := "d", url := "https://a"
           requestHeader := some "GET / HTTP/1.1" }] ++ []) =
      .error "Unexpected token <" := by
  have h := mapAlertsToFindings_throws_on_bad_header
    (fun _ => .error "Unexpected token <") "s1" "scan-s1"
    [{ pluginId := "p0", name := "ok", risk := 2, confidence := "High"
       description := "d", url := "https://a" }]
    []
    { pluginId := "p1", name := "bad", risk := 3, confidence := "Low"
      description := "d", url := "https://a"
      requestHeader := some "GET / HTTP/1.1" }
    "GET / HTTP/1.1" "Unexpected token <"
    rfl (by decide) rfl
    (by
      intro a ha
      fin_cases ha
      exact ⟨_, rfl⟩)
  simpa using h

/-! ## Trace lemmas for the scan handler -/

/-- Events that do not touch the scans row. -/
def rowNeutral : Ev → Bool
  | .dbUpdate _ _ _ => false
  | _ => true

theorem foldl_applyEv_of_neutral :
    ∀ (tr : List Ev), (∀ e ∈ tr, rowNeutral e = true) → ∀ row : ScanRow, tr.foldl applyEv row = row := by
  intro tr
  induction tr with
  | nil => intro _ _; rfl
  | cons e tr ih =>
    intro h row
    have he := h e (List.mem_cons_self e tr)
    have hrow : applyEv row e = row := by
      cases e <;> simp_all [rowNeutral, applyEv]
    rw [List.foldl_cons, hrow]
    exact ih (fun x hx => h x (List.mem_cons_of_mem e hx)) row

/-- Replaying a trace that ends in the outer catch block's failed write
followed by row-neutral cleanup events yields a failed row carrying the
thrown message. -/
theorem replay_catch (events fin : List Ev) (msg : String)
    (hfin : ∀ e ∈ fin, rowNeutral e = true) :
    (replayRow (events ++ [.dbUpdate .failed none (.errorObj msg)] ++ fin)).status = .failed ∧
    (replayRow (events ++ [.dbUpdate .failed none (.errorObj msg)] ++ fin)).errorMessage = some msg := by
  unfold replayRow
  rw [List.foldl_append, List.foldl_append, foldl_applyEv_of_neutral fin hfin]
  simp [applyEv, updateScanStatus, jsErrorMessage]

theorem scanTargetUrl_shape (env : ScanEnv) (u : String) :
    (scanTargetUrl env u).1 = [.spiderStarted u] ∨
    (scanTargetUrl env u).1 = [.spiderStarted u, .ascanStarted u] := by
  unfold scanTargetUrl
  rcases h1 : (env.target u).spiderStart with _ | e
  · rcases h2 : (env.target u).spiderCompletes
    · simp [h1, h2]
    · rcases h3 : (env.target u).ascanStart with _ | e
      · rcases h4 : (env.target u).ascanCompletes <;> simp [h1, h2, h3, h4]
      · simp [h1, h2, h3]
  · simp [h1]

theorem scanTargetUrl_spiders (env : ScanEnv) (u : String) :
    startedSpiders (scanTargetUrl env u).1 = [u] := by
  rcases scanTargetUrl_shape env u with h | h <;> simp [h, startedSpiders]

theorem scanTargetUrl_ascan_mem (env : ScanEnv) (u v : String)
    (hv : Ev.ascanStarted v ∈ (scanTargetUrl env u).1) : v = u := by
  rcases scanTargetUrl_shape env u with h | h <;> rw [h] at hv <;> simp_all

theorem scanTargetUrl_neutral (env : ScanEnv) (u : String) :
    ∀ e ∈ (scanTargetUrl env u).1, rowNeutral e = true := by
  rcases scanTargetUrl_shape env u with h | h <;> rw [h] <;> intro e he <;>
    simp at he <;> rcases he with rfl | rfl <;> rfl

theorem scanTargetUrl_countRemove (env : ScanEnv) (u : String) :
    countRemove (scanTargetUrl env u).1 = 0 := by
  rcases scanTargetUrl_shape env u with h | h <;> simp [h, countRemove, isCtxRemove]

theorem scanTargetUrl_ok_shape (env : ScanEnv) (u : String)
    (h : (scanTargetUrl env u).2 = none) :
    (scanTargetUrl env u).1 = [.spiderStarted u, .ascanStarted u] := by
  unfold scanTargetUrl at h ⊢
  rcases h1 : (env.target u).spiderStart with _ | e
  · rcases h2 : (env.target u).spiderCompletes
    · simp [h1, h2] at h
    · rcases h3 : (env.target u).ascanStart with _ | e
      · rcases h4 : (env.target u).ascanCompletes
        · simp [h1, h2, h3, h4] at h
        · simp [h1, h2, h3, h4]
      · simp [h1, h2, h3] at h
  · simp [h1] at h

theorem runIncludes_all_ok (env : ScanEnv) (name : String) :
    ∀ us : List String, (∀ u ∈ us, env.includeResult u = none) →
      runIncludes env name us = (us.map (Ev.ctxIncluded name), none) := by
  intro us
  induction us with
  | nil => intro _; rfl
  | cons u us ih =>
    intro h
    have hu := h u (List.mem_cons_self u us)
    have hus := ih fun v hv => h v (List.mem_cons_of_mem u hv)
    simp [runIncludes, hu, hus]

theorem runIncludes_snd_none (env : ScanEnv) (name : String) :
    ∀ us : List String, (runIncludes env name us).2 = none →
      ∀ u ∈ us, env.includeResult u = none := by
  intro us
  induction us with
  | nil => intro _ u hu; simp at hu
  | cons u us ih =>
    intro h v hv
    rcases hu : env.includeResult u with _ | e
    · rcases List.mem_cons.mp hv with rfl | hv'
      · exact hu
      · refine ih ?_ v hv'
        simpa [runIncludes, hu] using h
    · simp [runIncludes, hu] at h

theorem runIncludes_events (env : ScanEnv) (name : String) :
    ∀ us : List String, ∀ e ∈ (runIncludes env name us).1, ∃ u, e = Ev.ctxIncluded name u := by
  intro us
  induction us with
  | nil => intro e he; simp [runIncludes] at he
  | cons u us ih =>
    intro e he
    rcases hu : env.includeResult u with _ | err
    · rw [runIncludes, hu] at he
      simp at he
      rcases he with rfl | he'
      · exact ⟨u, rfl⟩
      · exact ih e he'
    · rw [runIncludes, hu] at he
      simp at he

theorem runIncludes_countRemove (env : ScanEnv) (name : String) (us : List String) :
    countRemove (runIncludes env name us).1 = 0 := by
  unfold countRemove
  rw [List.countP_eq_zero]
  intro e he
  obtain ⟨u, rfl⟩ := runIncludes_events env name us e he
  simp [isCtxRemove]

theorem runIncludes_neutral (env : ScanEnv) (name : String) (us : List String) :
    ∀ e ∈ (runIncludes env name us).1, rowNeutral e = true := by
  intro e he
  obtain ⟨u, rfl⟩ := runIncludes_events env name us e he
  rfl

theorem runIncludes_spiders (env : ScanEnv) (name : String) (us : List String) :
    startedSpiders (runIncludes env name us).1 = [] := by
  unfold startedSpiders
  rw [List.filterMap_eq_nil_iff]
  intro e he
  obtain ⟨u, rfl⟩ := runIncludes_events env name us e he
  rfl

theorem countRemove_append (a b : List Ev) :
    countRemove (a ++ b) = countRemove a + countRemove b :=
  List.countP_append _ _ _

theorem countRemove_singleton_dbUpdate (st : ScanStatus) (stats : Option ScanStats)
    (err : JsValue) : countRemove [Ev.dbUpdate st stats err] = 0 := rfl

theorem runTargets_countRemove (env : ScanEnv) :
    ∀ us : List String, countRemove (runTargets env us).1 = 0 := by
  intro us
  induction us with
  | nil => rfl
  | cons u us ih =>
    rcases h : (scanTargetUrl env u).2 with _ | e
    · simp only [runTargets, h]
      rw [countRemove_append, scanTargetUrl_countRemove, ih]
    · simp only [runTargets, h]
      rw [countRemove_append, scanTargetUrl_countRemove,
        countRemove_singleton_dbUpdate]

theorem runTargets_ok (env : ScanEnv) :
    ∀ us : List String, (∀ u ∈ us, (scanTargetUrl env u).2 = none) →
      (runTargets env us).2 = none ∧
      startedSpiders (runTargets env us).1 = us ∧
      startedAscans (runTargets env us).1 = us ∧
      (∀ e ∈ (runTargets env us).1, rowNeutral e = true) := by
  intro us
  induction us with
  | nil => intro _; exact ⟨rfl, rfl, rfl, by intro e he; simp [runTargets] at he⟩
  | cons u us ih =>
    intro h
    have hu := h u (List.mem_cons_self u us)
    have hus := ih fun v hv => h v (List.mem_cons_of_mem u hv)
    have hshape := scanTargetUrl_ok_shape env u hu
    refine ⟨?_, ?_, ?_, ?_⟩
    · simp [runTargets, hu, hus.1]
    · simp only [runTargets, hu]
      simp only [startedSpiders, List.filterMap_append] at hus ⊢
      simp [hshape, hus.2.1]
    · simp only [runTargets, hu]
      simp only [startedAscans, List.filterMap_append] at hus ⊢
      simp [hshape, hus.2.2.1]
    · intro e he
      rw [runTargets, hu] at he
      simp at he
      rcases he with he1 | he2
      · exact scanTargetUrl_neutral env u e he1
      · exact hus.2.2.2 e he2

theorem runTargets_firstFail (env : ScanEnv) (bad errMsg : String) (post : List String)
    (hbad : (scanTargetUrl env bad).2 = some errMsg) :
    ∀ pre : List String, (∀ u ∈ pre, (scanTargetUrl env u).2 = none) →
      (runTargets env (pre ++ bad :: post)).2 = some errMsg ∧
      startedSpiders (runTargets env (pre ++ bad :: post)).1 = pre ++ [bad] ∧
      (∀ v, Ev.ascanStarted v ∈ (runTargets env (pre ++ bad :: post)).1 → v ∈ pre ++ [bad]) := by
  intro pre
  induction pre with
  | nil =>
    intro _
    refine ⟨by simp [runTargets, hbad], ?_, ?_⟩
    · simp only [List.nil_append]
      simp only [runTargets, hbad]
      simp only [startedSpiders, List.filterMap_append] at *
      have := scanTargetUrl_spiders env bad
      simp only [startedSpiders] at this
      simp [this, startedSpiders]
    · intro v hv
      simp only [List.nil_append] at hv ⊢
      rw [runTargets, hbad] at hv
      rcases List.mem_append.mp hv with hv1 | hv2
      · have := scanTargetUrl_ascan_mem env bad v hv1
        simp [this]
      · simp at hv2
  | cons u pre ih =>
    intro h
    have hu := h u (List.mem_cons_self u pre)
    have hpre := ih fun v hv => h v (List.mem_cons_of_mem u hv)
    have hshape := scanTargetUrl_ok_shape env u hu
    refine ⟨?_, ?_, ?_⟩
    · simp only [List.cons_append]
      simp [runTargets, hu, hpre.1]
    · simp only [List.cons_append]
      simp only [runTargets, hu]
      simp only [startedSpiders, List.filterMap_append] at *
      simp [hshape, hpre.2.1]
    · intro v hv
      simp only [List.cons_append] at hv
      rw [runTargets, hu] at hv
      rcases List.mem_append.mp hv with hv1 | hv2
      · have := scanTargetUrl_ascan_mem env u v hv1
        simp [this]
      · have := hpre.2.2 v hv2
        simp at this ⊢
        tauto

theorem countRemove_nil : countRemove [] = 0 := rfl

theorem countRemove_cons (e : Ev) (tr : List Ev) :
    countRemove (e :: tr) = countRemove tr + (if isCtxRemove e then 1 else 0) :=
  List.countP_cons _ _ _

/-- Frame facts about the try body: it never invokes `removeContext`
itself; its `contextName` local is assigned exactly when the record
fetch, the context creation and every registration succeed; and when it
returns normally it has emitted the notification for the fetched
record's project. -/
theorem scanBody_frame (env : ScanEnv) (scanId : String) (urls : List String) :
    countRemove (scanBody env scanId urls).events = 0 ∧
    (scanBody env scanId urls).ctx =
      (if ctxEstablished env urls then some ("scan-" ++ scanId) else none) ∧
    ∀ rec, env.record = .ok rec → (scanBody env scanId urls).thrown = none →
      Ev.notified scanId rec.projectId ∈ (scanBody env scanId urls).events := by
  rcases hrec : env.record with e | rec
  · refine ⟨by simp [scanBody, hrec, countRemove_nil], ?_, ?_⟩
    · simp [scanBody, hrec, ctxEstablished]
    · intro rec hrec'
      exact absurd hrec' (by simp)
  · rcases hc : env.createContextOk with _ | e
    · rcases hrest : (runIncludes env ("scan-" ++ scanId) urls).2 with _ | e
      · -- context created and every target registered
        have hall : ∀ u ∈ urls, env.includeResult u = none :=
          runIncludes_snd_none env _ urls hrest
        have hest : ctxEstablished env urls = true := by
          simp [ctxEstablished, hrec, hc, List.all_eq_true, Option.isNone_iff_eq_none]
          exact hall
        rcases hr2 : (runTargets env urls).2 with _ | e
        · rcases halerts : env.alerts with e | alerts
          · refine ⟨?_, ?_, ?_⟩
            · simp [scanBody, hrec, createScanContext, hc, hrest, hr2, halerts,
                countRemove_append, countRemove_cons, countRemove_nil, isCtxRemove,
                runIncludes_countRemove, runTargets_countRemove]
            · simp [scanBody, hrec, createScanContext, hc, hrest, hr2, halerts, hest]
            · intro rec' hrec' hth
              simp [scanBody, hrec, createScanContext, hc, hrest, hr2, halerts] at hth
          · by_cases hlen : alerts.length > 0
            · rcases hmap : mapAlertsToFindings env.jsonParse scanId ("scan-" ++ scanId) alerts
                with e | findings
              · refine ⟨?_, ?_, ?_⟩
                · simp [scanBody, hrec, createScanContext, hc, hrest, hr2, halerts, hlen, hmap,
                    countRemove_append, countRemove_cons, countRemove_nil, isCtxRemove,
                    runIncludes_countRemove, runTargets_countRemove]
                · simp [scanBody, hrec, createScanContext, hc, hrest, hr2, halerts, hlen, hmap, hest]
                · intro rec' hrec' hth
                  simp [scanBody, hrec, createScanContext, hc, hrest, hr2, halerts, hlen, hmap] at hth
              · rcases hins : env.insertResult with _ | e
                · rcases hnot : env.notifyResult with _ | e
                  · -- full success with findings
                    refine ⟨?_, ?_, ?_⟩
                    · simp [scanBody, hrec, createScanContext, hc, hrest, hr2, halerts, hlen, hmap,
                        hins, hnot, countRemove_append, countRemove_cons, countRemove_nil,
                        isCtxRemove, runIncludes_countRemove, runTargets_countRemove]
                    · simp [scanBody, hrec, createScanContext, hc, hrest, hr2, halerts, hlen, hmap,
                        hins, hnot, hest]
                    · intro rec' hrec' hth
                      injection hrec' with hrec''
                      subst hrec''
                      simp [scanBody, hrec, createScanContext, hc, hrest, hr2, halerts, hlen,
                        hmap, hins, hnot]
                  · refine ⟨?_, ?_, ?_⟩
                    · simp [scanBody, hrec, createScanContext, hc, hrest, hr2, halerts, hlen, hmap,
                        hins, hnot, countRemove_append, countRemove_cons, countRemove_nil,
                        isCtxRemove, runIncludes_countRemove, runTargets_countRemove]
                    · simp [scanBody, hrec, createScanContext, hc, hrest, hr2, halerts, hlen, hmap,
                        hins, hnot, hest]
                    · intro rec' hrec' hth
                      simp [scanBody, hrec, createScanContext, hc, hrest, hr2, halerts, hlen,
                        hmap, hins, hnot] at hth
                · refine ⟨?_, ?_, ?_⟩
                  · simp [scanBody, hrec, createScanContext, hc, hrest, hr2, halerts, hlen, hmap,
                      hins, countRemove_append, countRemove_cons, countRemove_nil,
                      isCtxRemove, runIncludes_countRemove, runTargets_countRemove]
                  · simp [scanBody, hrec, createScanContext, hc, hrest, hr2, halerts, hlen, hmap,
                      hins, hest]
                  · intro rec' hrec' hth
                    simp [scanBody, hrec, createScanContext, hc, hrest, hr2, halerts, hlen,
                      hmap, hins] at hth
            · rcases hnot : env.notifyResult with _ | e
              · -- completed with all-zero statistics
                refine ⟨?_, ?_, ?_⟩
                · simp [scanBody, hrec, createScanContext, hc, hrest, hr2, halerts, hlen, hnot,
                    countRemove_append, countRemove_cons, countRemove_nil, isCtxRemove,
                    runIncludes_countRemove, runTargets_countRemove]
                · simp [scanBody, hrec, createScanContext, hc, hrest, hr2, halerts, hlen, hnot, hest]
                · intro rec' hrec' hth
                  injection hrec' with hrec''
                  subst hrec''
                  simp [scanBody, hrec, createScanContext, hc, hrest, hr2, halerts, hlen, hnot]
              · refine ⟨?_, ?_, ?_⟩
                · simp [scanBody, hrec, createScanContext, hc, hrest, hr2, halerts, hlen, hnot,
                    countRemove_append, countRemove_cons, countRemove_nil, isCtxRemove,
                    runIncludes_countRemove, runTargets_countRemove]
                · simp [scanBody, hrec, createScanContext, hc, hrest, hr2, halerts, hlen, hnot, hest]
                · intro rec' hrec' hth
                  simp [scanBody, hrec, createScanContext, hc, hrest, hr2, halerts, hlen, hnot] at hth
        · -- some target failed
          refine ⟨?_, ?_, ?_⟩
          · simp [scanBody, hrec, createScanContext, hc, hrest, hr2,
              countRemove_append, countRemove_cons, countRemove_nil, isCtxRemove,
              runIncludes_countRemove, runTargets_countRemove]
          · simp [scanBody, hrec, createScanContext, hc, hrest, hr2, hest]
          · intro rec' hrec' hth
            simp [scanBody, hrec, createScanContext, hc, hrest, hr2] at hth
      · -- some registration failed: context created, contextName never assigned
        have hnall : (urls.all fun u => (env.includeResult u).isNone) = false := by
          rcases hbool : urls.all fun u => (env.includeResult u).isNone with _ | _
          · rfl
          · exfalso
            have : ∀ u ∈ urls, env.includeResult u = none := by
              intro u hu
              have := List.all_eq_true.mp hbool u hu
              exact Option.isNone_iff_eq_none.mp this
            rw [runIncludes_all_ok env _ urls this] at hrest
            simp at hrest
        refine ⟨?_, ?_, ?_⟩
        · simp [scanBody, hrec, createScanContext, hc, hrest,
            countRemove_append, countRemove_cons, countRemove_nil, isCtxRemove,
            runIncludes_countRemove]
        · simp [scanBody, hrec, createScanContext, hc, hrest, ctxEstablished, hnall]
        · intro rec' hrec' hth
          simp [scanBody, hrec, createScanContext, hc, hrest] at hth
    · -- context creation failed
      refine ⟨?_, ?_, ?_⟩
      · simp [scanBody, hrec, createScanContext, hc,
          countRemove_append, countRemove_cons, countRemove_nil, isCtxRemove]
      · simp [scanBody, hrec, createScanContext, hc, ctxEstablished]
      · intro rec' hrec' hth
        simp [scanBody, hrec, createScanContext, hc] at hth

/-- C2: a job with an absent scanId, or an absent or empty targetUrls,
is rejected by the guard before any database write or ZAP call: the
handler throws the invalid-job error with an empty trace, so the scan is
never set in_progress or failed and no context is created. -/
theorem scan_rejects_invalid_job (env : ScanEnv) (job : ScanJob)
    (h : job.scanId = none ∨ job.targetUrls = none ∨ job.targetUrls = some []) :
    (scanHandler env job).1 = [] ∧
    (scanHandler env job).2 = .error "Invalid job data: scanId and targetUrls are required" ∧
    (∀ st stats err, Ev.dbUpdate st stats err ∉ (scanHandler env job).1) ∧
    (∀ name, Ev.ctxCreated name ∉ (scanHandler env job).1) := by
  have hinv : jobValid job = false := by
    rcases h with h | h | h <;> simp [jobValid, h]
  refine ⟨?_, ?_, ?_, ?_⟩ <;> simp [scanHandler, hinv]

/-- Witness: the empty-target job `{scanId: "s1", targetUrls: []}` is
rejected with no trace, against a fully healthy environment. -/
theorem scan_rejects_invalid_job_witness :
    (scanHandler
      { record := .ok ⟨"p1"⟩, createContextOk := none,
        includeResult := fun _ => none,
        target := fun _ => ⟨none, true, none, true⟩, alerts := .ok [],
        jsonParse := fun _ => .error "x", insertResult := none, notifyResult := none }
      ⟨some "s1", some []⟩).1 = [] ∧
    (scanHandler
      { record := .ok ⟨"p1"⟩, createContextOk := none,
        includeResult := fun _ => none,
        target := fun _ => ⟨none, true, none, true⟩, alerts := .ok [],
        jsonParse := fun _ => .error "x", insertResult := none, notifyResult := none }
      ⟨some "s1", some []⟩).2 = .error "Invalid job data: scanId and targetUrls are required" ∧
    (∀ st stats err, Ev.dbUpdate st stats err ∉
      (scanHandler
        { record := .ok ⟨"p1"⟩, createContextOk := none,
          includeResult := fun _ => none,
          target := fun _ => ⟨none, true, none, true⟩, alerts := .ok [],
          jsonParse := fun _ => .error "x", insertResult := none, notifyResult := none }
        ⟨some "s1", some []⟩).1) ∧
    (∀ name, Ev.ctxCreated name ∉
      (scanHandler
        { record := .ok ⟨"p1"⟩, createContextOk := none,
          includeResult := fun _ => none,
          target := fun _ => ⟨none, true, none, true⟩, alerts := .ok [],
          jsonParse := fun _ => .error "x", insertResult := none, notifyResult := none }
        ⟨some "s1", some []⟩).1) :=
  scan_rejects_invalid_job _ _ (Or.inr (Or.inr rfl))

/-- C1 (amended): for every validated job, any thrown stage error leaves
the replayed scans row failed with the thrown message stored, and
`removeContext` is invoked exactly once when the record fetch, the
context creation and every target registration succeeded, and zero times
otherwise — in particular it is not invoked when registration fails
after creation. -/
theorem scan_failure_status_and_cleanup (env : ScanEnv) (job : ScanJob)
    (hvalid : jobValid job = true) :
    (∀ e, (scanHandler env job).2 = .error e →
      (replayRow (scanHandler env job).1).status = .failed ∧
      (replayRow (scanHandler env job).1).errorMessage = some e) ∧
    countRemove (scanHandler env job).1 =
      (if ctxEstablished env (job.targetUrls.getD []) then 1 else 0) := by
  have hframe := scanBody_frame env (job.scanId.getD "") (job.targetUrls.getD [])
  rcases hth : (scanBody env (job.scanId.getD "") (job.targetUrls.getD [])).thrown with _ | e'
  · have htrace : (scanHandler env job).1 =
        (scanBody env (job.scanId.getD "") (job.targetUrls.getD [])).events ++
          (match (scanBody env (job.scanId.getD "") (job.targetUrls.getD [])).ctx with
            | some name => [Ev.ctxRemoveCalled name]
            | none => []) := by
      simp [scanHandler, hvalid, hth]
    have hres : (scanHandler env job).2 = .ok () := by
      simp [scanHandler, hvalid, hth]
    refine ⟨?_, ?_⟩
    · intro e he
      rw [hres] at he
      exact absurd he (by simp)
    · rw [htrace, countRemove_append, hframe.1, hframe.2.1]
      rcases hce : ctxEstablished env (job.targetUrls.getD []) with _ | _ <;>
        simp [countRemove_cons, countRemove_nil, isCtxRemove]
  · have htrace : (scanHandler env job).1 =
        (scanBody env (job.scanId.getD "") (job.targetUrls.getD [])).events ++
          [Ev.dbUpdate .failed none (.errorObj e')] ++
          (match (scanBody env (job.scanId.getD "") (job.targetUrls.getD [])).ctx with
            | some name => [Ev.ctxRemoveCalled name]
            | none => []) := by
      simp [scanHandler, hvalid, hth]
    have hres : (scanHandler env job).2 = .error e' := by
      simp [scanHandler, hvalid, hth]
    have hneutral : ∀ x ∈
        (match (scanBody env (job.scanId.getD "") (job.targetUrls.getD [])).ctx with
          | some name => [Ev.ctxRemoveCalled name]
          | none => []), rowNeutral x = true := by
      rcases (scanBody env (job.scanId.getD "") (job.targetUrls.getD [])).ctx with _ | name
      · intro x hx; simp at hx
      · intro x hx
        simp at hx
        subst hx
        rfl
    have hcatch := replay_catch
      (scanBody env (job.scanId.getD "") (job.targetUrls.getD [])).events
      (match (scanBody env (job.scanId.getD "") (job.targetUrls.getD [])).ctx with
        | some name => [Ev.ctxRemoveCalled name]
        | none => []) e' hneutral
    refine ⟨?_, ?_⟩
    · intro e he
      rw [hres] at he
      injection he with he'
      subst he'
      rw [htrace]
      exact hcatch
    · rw [htrace, countRemove_append, countRemove_append, hframe.1, hframe.2.1,
        countRemove_singleton_dbUpdate]
      rcases hce : ctxEstablished env (job.targetUrls.getD []) with _ | _ <;>
        simp [countRemove_cons, countRemove_nil, isCtxRemove]

/-- Counterexample to C1 as stated: with a job whose single target's
registration into the context fails after the context was created, the
handler creates the ZAP context but never invokes `removeContext` — the
context is leaked on this exit path (the row is still failed). -/
theorem scan_context_leak_counterexample :
    Ev.ctxCreated "scan-s1" ∈
      (scanHandler
        { record := .ok ⟨"p1"⟩, createContextOk := none,
          includeResult := fun _ => some "include failed",
          target := fun _ => ⟨none, true, none, true⟩, alerts := .ok [],
          jsonParse := fun _ => .error "x", insertResult := none, notifyResult := none }
        ⟨some "s1", some ["https://a.example"]⟩).1 ∧
    countRemove
      (scanHandler
        { record := .ok ⟨"p1"⟩, createContextOk := none,
          includeResult := fun _ => some "include failed",
          target := fun _ => ⟨none, true, none, true⟩, alerts := .ok [],
          jsonParse := fun _ => .error "x", insertResult := none, notifyResult := none }
        ⟨some "s1", some ["https://a.example"]⟩).1 = 0 ∧
    (replayRow
      (scanHandler
        { record := .ok ⟨"p1"⟩, createContextOk := none,
          includeResult := fun _ => some "include failed",
          target := fun _ => ⟨none, true, none, true⟩, alerts := .ok [],
          jsonParse := fun _ => .error "x", insertResult := none, notifyResult := none }
        ⟨some "s1", some ["https://a.example"]⟩).1).status = .failed := by
  refine ⟨?_, ?_, ?_⟩ <;> decide

/-- Witness for the amended C1 at a concrete failing environment: the
single target's active scan times out; the row is failed with the
timeout message stored and `removeContext` runs exactly once. -/
theorem scan_failure_status_and_cleanup_witness :
    ((∀ e, (scanHandler
        { record := .ok ⟨"p1"⟩, createContextOk := none,
          includeResult := fun _ => none,
          target := fun _ => ⟨none, true, none, false⟩, alerts := .ok [],
          jsonParse := fun _ => .error "x", insertResult := none, notifyResult := none }
        ⟨some "s1", some ["https://a.example"]⟩).2 = .error e →
      (replayRow (scanHandler
        { record := .ok ⟨"p1"⟩, createContextOk := none,
          includeResult := fun _ => none,
          target := fun _ => ⟨none, true, none, false⟩, alerts := .ok [],
          jsonParse := fun _ => .error "x", insertResult := none, notifyResult := none }
        ⟨some "s1", some ["https://a.example"]⟩).1).status = .failed ∧
      (replayRow (scanHandler
        { record := .ok ⟨"p1"⟩, createContextOk := none,
          includeResult := fun _ => none,
          target := fun _ => ⟨none, true, none, false⟩, alerts := .ok [],
          jsonParse := fun _ => .error "x", insertResult := none, notifyResult := none }
        ⟨some "s1", some ["https://a.example"]⟩).1).errorMessage = some e) ∧
    countRemove (scanHandler
        { record := .ok ⟨"p1"⟩, createContextOk := none,
          includeResult := fun _ => none,
          target := fun _ => ⟨none, true, none, false⟩, alerts := .ok [],
          jsonParse := fun _ => .error "x", insertResult := none, notifyResult := none }
        ⟨some "s1", some ["https://a.example"]⟩).1 =
      (if ctxEstablished
          { record := .ok ⟨"p1"⟩, createContextOk := none,
            includeResult := fun _ => none,
            target := fun _ => ⟨none, true, none, false⟩, alerts := .ok [],
            jsonParse := fun _ => .error "x", insertResult := none, notifyResult := none }
          ((⟨some "s1", some ["https://a.example"]⟩ : ScanJob).targetUrls.getD [])
        then 1 else 0)) :=
  scan_failure_status_and_cleanup _ _ (by decide)

/-- C8: whenever a handler run leaves the replayed scans row completed —
with or without findings — the notification message carrying the scanId
and the fetched record's projectId was enqueued during that run. -/
theorem scan_notifies_on_completion (env : ScanEnv) (job : ScanJob) (rec : DbScanRecord)
    (hvalid : jobValid job = true) (hrec : env.record = .ok rec)
    (hdone : (replayRow (scanHandler env job).1).status = .completed) :
    Ev.notified (job.scanId.getD "") rec.projectId ∈ (scanHandler env job).1 := by
  have hframe := scanBody_frame env (job.scanId.getD "") (job.targetUrls.getD [])
  rcases hth : (scanBody env (job.scanId.getD "") (job.targetUrls.getD [])).thrown with _ | e'
  · have hmem := hframe.2.2 rec hrec hth
    have htrace : (scanHandler env job).1 =
        (scanBody env (job.scanId.getD "") (job.targetUrls.getD [])).events ++
          (match (scanBody env (job.scanId.getD "") (job.targetUrls.getD [])).ctx with
            | some name => [Ev.ctxRemoveCalled name]
            | none => []) := by
      simp [scanHandler, hvalid, hth]
    rw [htrace]
    exact List.mem_append_left _ hmem
  · exfalso
    have htrace : (scanHandler env job).1 =
        (scanBody env (job.scanId.getD "") (job.targetUrls.getD [])).events ++
          [Ev.dbUpdate .failed none (.errorObj e')] ++
          (match (scanBody env (job.scanId.getD "") (job.targetUrls.getD [])).ctx with
            | some name => [Ev.ctxRemoveCalled name]
            | none => []) := by
      simp [scanHandler, hvalid, hth]
    have hneutral : ∀ x ∈
        (match (scanBody env (job.scanId.getD "") (job.targetUrls.getD [])).ctx with
          | some name => [Ev.ctxRemoveCalled name]
          | none => []), rowNeutral x = true := by
      rcases (scanBody env (job.scanId.getD "") (job.targetUrls.getD [])).ctx with _ | name
      · intro x hx; simp at hx
      · intro x hx
        simp at hx
        subst hx
        rfl
    have hcatch := replay_catch
      (scanBody env (job.scanId.getD "") (job.targetUrls.getD [])).events
      (match (scanBody env (job.scanId.getD "") (job.targetUrls.getD [])).ctx with
        | some name => [Ev.ctxRemoveCalled name]
        | none => []) e' hneutral
    rw [htrace, hcatch.1] at hdone
    exact absurd hdone (by simp)

/-- Witness for C8: a healthy run with no alerts completes and the
notification for the record's project is in the trace. -/
theorem scan_notifies_on_completion_witness :
    Ev.notified "s1" "p1" ∈
      (scanHandler
        { record := .ok ⟨"p1"⟩, createContextOk := none,
          includeResult := fun _ => none,
          target := fun _ => ⟨none, true, none, true⟩, alerts := .ok [],
          jsonParse := fun _ => .error "x", insertResult := none, notifyResult := none }
        ⟨some "s1", some ["https://a.example"]⟩).1 :=
  scan_notifies_on_completion _ _ ⟨"p1"⟩ (by decide) rfl (by decide)

theorem startedSpiders_append (a b : List Ev) :
    startedSpiders (a ++ b) = startedSpiders a ++ startedSpiders b :=
  List.filterMap_append a b _

theorem startedSpiders_map_included (nm : String) (us : List String) :
    startedSpiders (us.map (Ev.ctxIncluded nm)) = [] := by
  unfold startedSpiders
  rw [List.filterMap_eq_nil_iff]
  intro e he
  rcases List.mem_map.mp he with ⟨u, _, rfl⟩
  rfl

theorem countRemove_map_included (nm : String) (us : List String) :
    countRemove (us.map (Ev.ctxIncluded nm)) = 0 := by
  unfold countRemove
  rw [List.countP_eq_zero]
  intro e he
  rcases List.mem_map.mp he with ⟨u, _, rfl⟩
  simp [isCtxRemove]

/-- C7: targets are driven strictly in the order of `targetUrls`; when
the first per-target failure occurs, spiders were started exactly for
the preceding targets and the failing one (in order), no active scan was
started beyond those targets, the row is failed with the target error
stored, and context cleanup still runs exactly once. -/
theorem scan_targets_sequential_abort (env : ScanEnv) (job : ScanJob) (rec : DbScanRecord)
    (pre post : List String) (bad errMsg : String)
    (hvalid : jobValid job = true)
    (hurls : job.targetUrls = some (pre ++ bad :: post))
    (hrec : env.record = .ok rec)
    (hcreate : env.createContextOk = none)
    (hinc : ∀ u ∈ pre ++ bad :: post, env.includeResult u = none)
    (hpre : ∀ u ∈ pre, (scanTargetUrl env u).2 = none)
    (hbad : (scanTargetUrl env bad).2 = some errMsg) :
    startedSpiders (scanHandler env job).1 = pre ++ [bad] ∧
    (∀ v, Ev.ascanStarted v ∈ (scanHandler env job).1 → v ∈ pre ++ [bad]) ∧
    (replayRow (scanHandler env job).1).status = .failed ∧
    (replayRow (scanHandler env job).1).errorMessage = some errMsg ∧
    countRemove (scanHandler env job).1 = 1 := by
  have hrt := runTargets_firstFail env bad errMsg post hbad pre hpre
  have hgetd : job.targetUrls.getD [] = pre ++ bad :: post := by rw [hurls]; rfl
  have hbody : scanBody env (job.scanId.getD "") (pre ++ bad :: post) =
      ⟨[Ev.dbUpdate .in_progress none .undef] ++
        (Ev.ctxCreated ("scan-" ++ job.scanId.getD "") ::
          (pre ++ bad :: post).map (Ev.ctxIncluded ("scan-" ++ job.scanId.getD ""))) ++
        (runTargets env (pre ++ bad :: post)).1,
        some ("scan-" ++ job.scanId.getD ""), some errMsg⟩ := by
    simp [scanBody, hrec, createScanContext, hcreate,
      runIncludes_all_ok env ("scan-" ++ job.scanId.getD "") (pre ++ bad :: post) hinc,
      hrt.1]
  have htrace : (scanHandler env job).1 =
      ([Ev.dbUpdate .in_progress none .undef] ++
        (Ev.ctxCreated ("scan-" ++ job.scanId.getD "") ::
          (pre ++ bad :: post).map (Ev.ctxIncluded ("scan-" ++ job.scanId.getD ""))) ++
        (runTargets env (pre ++ bad :: post)).1) ++
        [Ev.dbUpdate .failed none (.errorObj errMsg)] ++
        [Ev.ctxRemoveCalled ("scan-" ++ job.scanId.getD "")] := by
    simp only [scanHandler, hvalid, if_true, hgetd, hbody]
  refine ⟨?_, ?_, ?_, ?_, ?_⟩
  · rw [htrace]
    simp only [startedSpiders_append, hrt.2.1]
    rw [show startedSpiders [Ev.dbUpdate .in_progress none .undef] = [] from rfl]
    rw [show startedSpiders [Ev.dbUpdate .failed none (.errorObj errMsg)] = [] from rfl]
    rw [show startedSpiders [Ev.ctxRemoveCalled ("scan-" ++ job.scanId.getD "")] = [] from rfl]
    have : startedSpiders
        (Ev.ctxCreated ("scan-" ++ job.scanId.getD "") ::
          (pre ++ bad :: post).map (Ev.ctxIncluded ("scan-" ++ job.scanId.getD ""))) = [] := by
      unfold startedSpiders
      rw [List.filterMap_cons]
      have := startedSpiders_map_included ("scan-" ++ job.scanId.getD "") (pre ++ bad :: post)
      unfold startedSpiders at this
      simp [this]
    rw [this]
    simp
  · intro v hv
    rw [htrace] at hv
    rcases List.mem_append.mp hv with hv1 | hvE
    · rcases List.mem_append.mp hv1 with hv2 | hvD
      · rcases List.mem_append.mp hv2 with hv3 | hvC
        · rcases List.mem_append.mp hv3 with hvA | hvB
          · simp at hvA
          · rcases List.mem_cons.mp hvB with hvB1 | hvB2
            · exact absurd hvB1 (by simp)
            · rcases List.mem_map.mp hvB2 with ⟨u, _, hu⟩
              exact absurd hu (by simp)
        · exact hrt.2.2 v hvC
      · simp at hvD
    · simp at hvE
  · have := (replay_catch
      ([Ev.dbUpdate .in_progress none .undef] ++
        (Ev.ctxCreated ("scan-" ++ job.scanId.getD "") ::
          (pre ++ bad :: post).map (Ev.ctxIncluded ("scan-" ++ job.scanId.getD ""))) ++
        (runTargets env (pre ++ bad :: post)).1)
      [Ev.ctxRemoveCalled ("scan-" ++ job.scanId.getD "")] errMsg
      (by intro x hx; simp at hx; subst hx; rfl)).1
    rw [htrace]
    exact this
  · have := (replay_catch
      ([Ev.dbUpdate .in_progress none .undef] ++
        (Ev.ctxCreated ("scan-" ++ job.scanId.getD "") ::
          (pre ++ bad :: post).map (Ev.ctxIncluded ("scan-" ++ job.scanId.getD ""))) ++
        (runTargets env (pre ++ bad :: post)).1)
      [Ev.ctxRemoveCalled ("scan-" ++ job.scanId.getD "")] errMsg
      (by intro x hx; simp at hx; subst hx; rfl)).2
    rw [htrace]
    exact this
  · rw [htrace]
    simp [countRemove_append, countRemove_cons, countRemove_nil,
      countRemove_map_included, runTargets_countRemove, isCtxRemove]

/-- Witness for C7: two targets where the first one's spider times out —
only the first spider is started, no active scan runs, the row is failed
and cleanup runs once. -/
theorem scan_targets_sequential_abort_witness :
    startedSpiders
      (scanHandler
        { record := .ok ⟨"p1"⟩, createContextOk := none,
          includeResult := fun _ => none,
          target := fun _ => ⟨none, false, none, true⟩, alerts := .ok [],
          jsonParse := fun _ => .error "x", insertResult := none, notifyResult := none }
        ⟨some "s1", some ["https://a.example", "https://b.example"]⟩).1 =
      [] ++ ["https://a.example"] ∧
    (∀ v, Ev.ascanStarted v ∈
      (scanHandler
        { record := .ok ⟨"p1"⟩, createContextOk := none,
          includeResult := fun _ => none,
          target := fun _ => ⟨none, false, none, true⟩, alerts := .ok [],
          jsonParse := fun _ => .error "x", insertResult := none, notifyResult := none }
        ⟨some "s1", some ["https://a.example", "https://b.example"]⟩).1 →
        v ∈ [] ++ ["https://a.example"]) ∧
    (replayRow (scanHandler
        { record := .ok ⟨"p1"⟩, createContextOk := none,
          includeResult := fun _ => none,
          target := fun _ => ⟨none, false, none, true⟩, alerts := .ok [],
          jsonParse := fun _ => .error "x", insertResult := none, notifyResult := none }
        ⟨some "s1", some ["https://a.example", "https://b.example"]⟩).1).status = .failed ∧
    (replayRow (scanHandler
        { record := .ok ⟨"p1"⟩, createContextOk := none,
          includeResult := fun _ => none,
          target := fun _ => ⟨none, false, none, true⟩, alerts := .ok [],
          jsonParse := fun _ => .error "x", insertResult := none, notifyResult := none }
        ⟨some "s1", some ["https://a.example", "https://b.example"]⟩).1).errorMessage =
      some "spider scan timed out after 200 seconds" ∧
    countRemove (scanHandler
        { record := .ok ⟨"p1"⟩, createContextOk := none,
          includeResult := fun _ => none,
          target := fun _ => ⟨none, false, none, true⟩, alerts := .ok [],
          jsonParse := fun _ => .error "x", insertResult := none, notifyResult := none }
        ⟨some "s1", some ["https://a.example", "https://b.example"]⟩).1 = 1 :=
  scan_targets_sequential_abort _ _ ⟨"p1"⟩ [] ["https://b.example"]
    "https://a.example" "spider scan timed out after 200 seconds"
    (by decide) rfl rfl rfl
    (by intro u hu; rfl)
    (by intro u hu; simp at hu)
    rfl
